import Mathlib

/-!
Shallow embedding of `src/vector-drawing.js` (a WebGL vector-drawing program).

Conventions of the embedding:
* JavaScript numbers that the program produces by exact arithmetic on click
  coordinates and color components are modelled as rationals (`ℚ`); the
  program's `Float32Array` round-trips are exact on the values the model
  manipulates, so the 1e-6 tolerance of the spec is implied by exact equality.
* The two GPU buffers created in `initBuffers` are zero-initialized fixed
  stores written through `bufferSubData` at byte offsets; we model each as a
  total map from float index (byte offset divided by 4) to the stored value.
* `drawingHistory` is the global array of the program.  During drawing it
  holds run records `{mode, vertLength}`, but `downloadDrawing` also pushes
  the raw vertex and color arrays onto it, so an entry is either a run record
  or a raw data array (`HistoryEntry`).
-/

/-- The WebGL primitive modes selectable in the `draw-mode` HTML input
(the values accepted by `gl[drawingMode.mode]` in `render`). -/
inductive DrawMode
  | POINTS
  | LINE_STRIP
  | LINE_LOOP
  | LINES
  | TRIANGLE_STRIP
  | TRIANGLE_FAN
  | TRIANGLES
  deriving DecidableEq, Repr

/-- One entry of the global `drawingHistory` array: either a run record
`{mode, vertLength}` pushed by `addVertex`, or a raw numeric array pushed by
`downloadDrawing` (the serialized `Float32Array`s). -/
inductive HistoryEntry
  | run (mode : DrawMode) (vertLength : Nat)
  | data (values : List ℚ)
  deriving DecidableEq, Repr

/-- The `.mode` property of a history entry; `none` models JavaScript
`undefined` (a raw data array has no `mode` property). -/
def entryMode : HistoryEntry → Option DrawMode
  | HistoryEntry.run m _ => some m
  | HistoryEntry.data _ => none

/-- The `.vertLength` property of a history entry; `none` models `undefined`. -/
def entryVertLength : HistoryEntry → Option Nat
  | HistoryEntry.run _ n => some n
  | HistoryEntry.data _ => none

/-- Sum of the run lengths recorded in the history (the spec's
`RunLedger.totalVertices()`); raw data entries carry no run length. -/
def totalVertices (hist : List HistoryEntry) : Nat :=
  (hist.map fun e => match e with
    | HistoryEntry.run _ n => n
    | HistoryEntry.data _ => 0).sum

/-- `Float32Array.BYTES_PER_ELEMENT`. -/
def BYTES_PER_ELEMENT : Nat := 4

/-- Capacity of each buffer allocated in `initBuffers`
(100000 vertices). -/
def MAX_VERTICES : Nat := 100000

/-- `gl.bufferSubData`: overwrite the buffer contents starting at float index
`start` with the elements of `values`; all other cells keep their value. -/
def writeFloats (buf : Nat → ℚ) (start : Nat) (values : List ℚ) : Nat → ℚ :=
  fun i => if start ≤ i ∧ i - start < values.length then values.getD (i - start) 0 else buf i

/-- `gl.getBufferSubData` from byte offset 0: read the first `n` floats of the
buffer as a list. -/
def readFloats (buf : Nat → ℚ) (n : Nat) : List ℚ :=
  (List.range n).map buf

/-- The mutable program state: the global `drawingHistory` array together with
the fields the program hangs on the `gl` context object (the two buffers, the
two running byte offsets, and the currently selected mode and color). -/
structure GLState where
  drawingHistory : List HistoryEntry
  posBuffer : Nat → ℚ
  colorBuffer : Nat → ℚ
  currentCoordByteOffset : Nat
  currentColorByteOffset : Nat
  drawingMode : DrawMode
  drawingColor : ℚ × ℚ × ℚ

/-- The spec's `vertexCount`: the coordinate byte offset divided by the bytes
of one 2-float position. -/
def vertexCount (st : GLState) : Nat :=
  st.currentCoordByteOffset / (2 * BYTES_PER_ELEMENT)

/-- The logically-used prefix of the position buffer, exactly the `vertices`
array `downloadDrawing` builds (`currentCoordByteOffset / BYTES_PER_ELEMENT`
floats read from byte offset 0). -/
def storedPositions (st : GLState) : List ℚ :=
  readFloats st.posBuffer (st.currentCoordByteOffset / BYTES_PER_ELEMENT)

/-- The logically-used prefix of the color buffer, exactly the `colors` array
`downloadDrawing` builds. -/
def storedColors (st : GLState) : List ℚ :=
  readFloats st.colorBuffer (st.currentColorByteOffset / BYTES_PER_ELEMENT)

/-- The condition of `addVertex` deciding whether a new run record is pushed:
`drawingHistory.length === 0 || gl.drawingMode !== drawingHistory[last].mode`.
For a raw data entry the `.mode` property is `undefined`, which is unequal to
every mode string. -/
def shouldStartRun (hist : List HistoryEntry) (mode : DrawMode) : Bool :=
  match hist.getLast? with
  | none => true
  | some e => decide (entryMode e ≠ some mode)

/-- `drawingHistory[drawingHistory.length - 1].vertLength += 1`.  At every
call site the last entry is a run record (a fresh one was just pushed when the
previous last entry was not a matching run), so the data-entry case is
unreachable in the program; we leave the history unchanged there. -/
def incrementLast (hist : List HistoryEntry) : List HistoryEntry :=
  match hist.getLast? with
  | some (HistoryEntry.run m n) => hist.dropLast ++ [HistoryEntry.run m (n + 1)]
  | some (HistoryEntry.data _) => hist
  | none => hist

/-- The history update performed by `addVertex`: push a fresh
`{mode, vertLength: 0}` record when the history is empty or the last entry's
mode differs from the active mode, then increment the last record's length. -/
def recordVertex (hist : List HistoryEntry) (mode : DrawMode) : List HistoryEntry :=
  incrementLast (if shouldStartRun hist mode then hist ++ [HistoryEntry.run mode 0] else hist)

/-- `addVertex`: convert the click position `(x, y)` on a `(w, h)` surface to
clip coordinates, update the drawing history, write the new position and color
at the current byte offsets of the two buffers, and advance both offsets.
(The trailing `render()` call does not touch this state, see `render`.) -/
def addVertex (st : GLState) (x y w h : ℚ) : GLState :=
  let xy : List ℚ := [(2 * x) / w - 1, 1 - (2 * y) / h]
  { st with
    drawingHistory := recordVertex st.drawingHistory st.drawingMode
    posBuffer := writeFloats st.posBuffer (st.currentCoordByteOffset / BYTES_PER_ELEMENT) xy
    colorBuffer := writeFloats st.colorBuffer (st.currentColorByteOffset / BYTES_PER_ELEMENT)
      [st.drawingColor.1, st.drawingColor.2.1, st.drawingColor.2.2]
    currentCoordByteOffset := st.currentCoordByteOffset + 2 * BYTES_PER_ELEMENT
    currentColorByteOffset := st.currentColorByteOffset + 3 * BYTES_PER_ELEMENT }

/-- The position `addVertex st x y w h` stores for the new vertex: the two
floats written at the current coordinate offset of the position buffer. -/
def appendedPosition (st : GLState) (x y w h : ℚ) : ℚ × ℚ :=
  ((addVertex st x y w h).posBuffer (st.currentCoordByteOffset / BYTES_PER_ELEMENT),
   (addVertex st x y w h).posBuffer (st.currentCoordByteOffset / BYTES_PER_ELEMENT + 1))

/-- The state right after `init`: both byte offsets 0, both buffers
zero-initialized by `bufferData`, empty drawing history, and the mode and
color read from the HTML inputs by `initEvents`. -/
def initialState (mode : DrawMode) (color : ℚ × ℚ × ℚ) : GLState :=
  { drawingHistory := []
    posBuffer := fun _ => 0
    colorBuffer := fun _ => 0
    currentCoordByteOffset := 0
    currentColorByteOffset := 0
    drawingMode := mode
    drawingColor := color }

/-- One canvas click together with the values the mode and color inputs hold
when it arrives (`offsetX`, `offsetY`, `offsetWidth`, `offsetHeight`). -/
structure ClickEvent where
  offsetX : ℚ
  offsetY : ℚ
  offsetWidth : ℚ
  offsetHeight : ℚ
  mode : DrawMode
  color : ℚ × ℚ × ℚ

/-- Processing one click: the `change` handlers have set `gl.drawingMode` and
`gl.drawingColor` to the event's values, then `addVertex` runs. -/
def step (st : GLState) (ev : ClickEvent) : GLState :=
  addVertex { st with drawingMode := ev.mode, drawingColor := ev.color }
    ev.offsetX ev.offsetY ev.offsetWidth ev.offsetHeight

/-- A whole sequence of clicks processed in order. -/
def applyClicks (st : GLState) (evs : List ClickEvent) : GLState :=
  evs.foldl step st

/-- The state of a drawing session that starts at `initialState mode color`
and processes the clicks `evs`. -/
def sessionOf (mode : DrawMode) (color : ℚ × ℚ × ℚ) (evs : List ClickEvent) : GLState :=
  applyClicks (initialState mode color) evs

/-- One `gl.drawArrays(gl[entry.mode], startingIndexPerMode, entry.vertLength)`
call issued by `render`; `none` components model JavaScript `undefined`/`NaN`
(a raw data entry has no `mode`/`vertLength`, and adding `undefined` to the
running offset poisons it to `NaN`). -/
structure DrawCall where
  mode : Option DrawMode
  first : Option Nat
  count : Option Nat
  deriving DecidableEq, Repr

/-- `startingIndexPerMode += drawingMode.vertLength`: ordinary addition, with
`NaN` (`none`) absorbing. -/
def addOffset : Option Nat → Option Nat → Option Nat
  | some a, some b => some (a + b)
  | _, _ => none

/-- The `drawingHistory.forEach` loop of `render`: returns the draw calls
issued, in order, and the final value of `startingIndexPerMode`. -/
def renderLoop : List HistoryEntry → Option Nat → List DrawCall × Option Nat
  | [], off => ([], off)
  | e :: rest, off =>
    let next := renderLoop rest (addOffset off (entryVertLength e))
    (⟨entryMode e, off, entryVertLength e⟩ :: next.1, next.2)

/-- All draw calls a render pass issues, in order
(`startingIndexPerMode` starts at 0). -/
def renderCalls (hist : List HistoryEntry) : List DrawCall :=
  (renderLoop hist (some 0)).1

/-- The value of `startingIndexPerMode` after the render pass. -/
def renderFinalOffset (hist : List HistoryEntry) : Option Nat :=
  (renderLoop hist (some 0)).2

/-- `render`: clears the surface, iterates the drawing history issuing one
draw call per entry, and assigns to none of the data-model state (the only
locals are the loop variable and `startingIndexPerMode`), so it returns the
state unchanged alongside the issued draw calls. -/
def render (st : GLState) : GLState × List DrawCall :=
  (st, renderCalls st.drawingHistory)

/-- A run ledger given as plain (mode, length) pairs, as history entries. -/
def runsToHistory (runs : List (DrawMode × Nat)) : List HistoryEntry :=
  runs.map fun r => HistoryEntry.run r.1 r.2

/-- Modelled from the spec (§4.4), for comparison with `renderCalls`: one draw
call per run, covering `[startOffset, startOffset+length)` with the run's
mode, the offset advancing by each run's length. -/
def specDrawSequence : List (DrawMode × Nat) → Nat → List DrawCall
  | [], _ => []
  | r :: rest, start => ⟨some r.1, some start, some r.2⟩ :: specDrawSequence rest (start + r.2)

/-- `downloadDrawing`: read back the used prefixes of the two buffers, push
them onto `drawingHistory` (mutating it!), and serialize the resulting list as
the JSON snapshot.  Returns the mutated state and the snapshot, which are the
same list. -/
def downloadDrawing (st : GLState) : GLState × List HistoryEntry :=
  let vertices := storedPositions st
  let colors := storedColors st
  let hist := st.drawingHistory ++ [HistoryEntry.data vertices, HistoryEntry.data colors]
  ({ st with drawingHistory := hist }, hist)

/-- `Array.prototype.pop`: split off the last element, `none` on an empty
array (where the program would read properties of `undefined`). -/
def popLast (l : List HistoryEntry) : Option (List HistoryEntry × HistoryEntry) :=
  match l.reverse with
  | [] => none
  | e :: rest => some (rest.reverse, e)

/-- `uploadDrawing`'s load handler applied to a parsed snapshot: replace
`drawingHistory` by the snapshot, pop the color data then the vertex data off
its end, write both at byte offset 0 of the buffers, and set the byte offsets
from the array lengths.  `none` covers the paths where the JavaScript does not
reach the state update (popping an empty list throws on `Object.values of
undefined`; a popped run record would coerce to `NaN` data, which no snapshot
the program writes contains). -/
def uploadDrawing (st : GLState) (snapshot : List HistoryEntry) : Option GLState :=
  match popLast snapshot with
  | none => none
  | some (h1, colorsEntry) =>
    match popLast h1 with
    | none => none
    | some (h2, verticesEntry) =>
      match verticesEntry, colorsEntry with
      | HistoryEntry.data vertices, HistoryEntry.data colors =>
        some { st with
          drawingHistory := h2
          posBuffer := writeFloats st.posBuffer 0 vertices
          colorBuffer := writeFloats st.colorBuffer 0 colors
          currentCoordByteOffset := vertices.length * BYTES_PER_ELEMENT
          currentColorByteOffset := colors.length * BYTES_PER_ELEMENT }
      | _, _ => none

/-! ### Helper lemmas -/

lemma totalVertices_append (l1 l2 : List HistoryEntry) :
    totalVertices (l1 ++ l2) = totalVertices l1 + totalVertices l2 := by
  simp [totalVertices]

lemma incrementLast_concat_run (l : List HistoryEntry) (m : DrawMode) (n : Nat) :
    incrementLast (l ++ [HistoryEntry.run m n]) = l ++ [HistoryEntry.run m (n + 1)] := by
  simp [incrementLast, List.getLast?_concat, List.dropLast_concat]

/-- When the last history entry is not a run record of the active mode (or the
history is empty), `addVertex` appends a fresh run of length 1. -/
lemma recordVertex_append (hist : List HistoryEntry) (m : DrawMode)
    (h : ∀ n, hist.getLast? ≠ some (HistoryEntry.run m n)) :
    recordVertex hist m = hist ++ [HistoryEntry.run m 1] := by
  have hs : shouldStartRun hist m = true := by
    unfold shouldStartRun
    cases hgl : hist.getLast? with
    | none => rfl
    | some e =>
      cases e with
      | run m2 n =>
        have hm2 : m2 ≠ m := by
          intro hcontra
          exact h n (by rw [hgl, hcontra])
        simp [entryMode, hm2]
      | data v => simp [entryMode]
  rw [recordVertex, if_pos hs, incrementLast_concat_run]

/-- When the last history entry is a run record of the active mode,
`addVertex` increments its length. -/
lemma recordVertex_extend (hist : List HistoryEntry) (m : DrawMode) (n : Nat)
    (h : hist.getLast? = some (HistoryEntry.run m n)) :
    recordVertex hist m = hist.dropLast ++ [HistoryEntry.run m (n + 1)] := by
  have hs : shouldStartRun hist m = false := by
    unfold shouldStartRun
    rw [h]
    simp [entryMode]
  rw [recordVertex, if_neg (by simp [hs]), incrementLast, h]

/-- Every `addVertex` history update adds exactly one to the total number of
recorded vertices. -/
lemma totalVertices_recordVertex (hist : List HistoryEntry) (m : DrawMode) :
    totalVertices (recordVertex hist m) = totalVertices hist + 1 := by
  by_cases hc : ∃ n, hist.getLast? = some (HistoryEntry.run m n)
  · obtain ⟨n, hn⟩ := hc
    obtain ⟨t, ht⟩ := List.getLast?_eq_some_iff.mp hn
    rw [recordVertex_extend hist m n hn, ht, List.dropLast_concat,
      totalVertices_append, totalVertices_append]
    simp [totalVertices]
    omega
  · push_neg at hc
    rw [recordVertex_append hist m hc, totalVertices_append]
    simp [totalVertices]

lemma totalVertices_applyClicks (evs : List ClickEvent) : ∀ st : GLState,
    totalVertices (applyClicks st evs).drawingHistory =
      totalVertices st.drawingHistory + evs.length := by
  induction evs with
  | nil => intro st; simp [applyClicks]
  | cons ev rest ih =>
    intro st
    have hstep : totalVertices (step st ev).drawingHistory =
        totalVertices st.drawingHistory + 1 := by
      simp only [step, addVertex]
      exact totalVertices_recordVertex _ _
    simp only [applyClicks, List.foldl_cons, List.length_cons]
    rw [show List.foldl step (step st ev) rest = applyClicks (step st ev) rest from rfl,
      ih (step st ev), hstep]
    omega

lemma offsets_applyClicks (evs : List ClickEvent) : ∀ st : GLState,
    (applyClicks st evs).currentCoordByteOffset =
      st.currentCoordByteOffset + 8 * evs.length ∧
    (applyClicks st evs).currentColorByteOffset =
      st.currentColorByteOffset + 12 * evs.length := by
  induction evs with
  | nil => intro st; simp [applyClicks]
  | cons ev rest ih =>
    intro st
    have hunfold : applyClicks st (ev :: rest) = applyClicks (step st ev) rest := rfl
    have hc : (step st ev).currentCoordByteOffset = st.currentCoordByteOffset + 8 := by
      simp [step, addVertex, BYTES_PER_ELEMENT]
    have hcol : (step st ev).currentColorByteOffset = st.currentColorByteOffset + 12 := by
      simp [step, addVertex, BYTES_PER_ELEMENT]
    have h := ih (step st ev)
    rw [hunfold]
    constructor
    · rw [h.1, hc]
      simp [List.length_cons]
      omega
    · rw [h.2, hcol]
      simp [List.length_cons]
      omega

lemma sessionOf_offsets (m : DrawMode) (c : ℚ × ℚ × ℚ) (evs : List ClickEvent) :
    (sessionOf m c evs).currentCoordByteOffset = 8 * evs.length ∧
    (sessionOf m c evs).currentColorByteOffset = 12 * evs.length := by
  have := offsets_applyClicks evs (initialState m c)
  simpa [sessionOf, initialState] using this

/-! ### Claims -/

/-- Claim C1: after any sequence of vertex placements, the sum of all run
lengths in `drawingHistory` equals the Geometry Store's `vertexCount` (the
coordinate byte offset divided by the 8 bytes of one 2-float position). -/
theorem C1_ledger_total_eq_vertexCount (m : DrawMode) (c : ℚ × ℚ × ℚ)
    (evs : List ClickEvent) :
    totalVertices (sessionOf m c evs).drawingHistory = vertexCount (sessionOf m c evs) := by
  have h1 := totalVertices_applyClicks evs (initialState m c)
  have h2 := (sessionOf_offsets m c evs).1
  rw [show applyClicks (initialState m c) evs = sessionOf m c evs from rfl] at h1
  rw [h1, vertexCount, h2]
  simp [initialState, totalVertices, BYTES_PER_ELEMENT]

/-- Claim C2: placing a vertex with active mode `m` increments the last run's
length when that run's mode is `m`, and otherwise appends a fresh run of
length 1; hence modes `[A, A, B, B, B, A]` (with `A ≠ B`) produce exactly the
runs `[{A,2},{B,3},{A,1}]` in that order. -/
theorem C2_run_segmentation (hist : List HistoryEntry) (m A B : DrawMode) (hAB : A ≠ B) :
    (∀ n, hist.getLast? = some (HistoryEntry.run m n) →
      recordVertex hist m = hist.dropLast ++ [HistoryEntry.run m (n + 1)]) ∧
    ((∀ n, hist.getLast? ≠ some (HistoryEntry.run m n)) →
      recordVertex hist m = hist ++ [HistoryEntry.run m 1]) ∧
    List.foldl recordVertex [] [A, A, B, B, B, A] =
      [HistoryEntry.run A 2, HistoryEntry.run B 3, HistoryEntry.run A 1] := by
  refine ⟨fun n hn => recordVertex_extend hist m n hn,
          fun hno => recordVertex_append hist m hno, ?_⟩
  have s1 : recordVertex [] A = [HistoryEntry.run A 1] := by
    simpa using recordVertex_append [] A (by simp)
  have s2 : recordVertex [HistoryEntry.run A 1] A = [HistoryEntry.run A 2] := by
    simpa using recordVertex_extend [HistoryEntry.run A 1] A 1 (by simp)
  have s3 : recordVertex [HistoryEntry.run A 2] B =
      [HistoryEntry.run A 2, HistoryEntry.run B 1] := by
    simpa using recordVertex_append [HistoryEntry.run A 2] B (fun n => by simp [hAB])
  have s4 : recordVertex [HistoryEntry.run A 2, HistoryEntry.run B 1] B =
      [HistoryEntry.run A 2, HistoryEntry.run B 2] := by
    simpa using recordVertex_extend [HistoryEntry.run A 2, HistoryEntry.run B 1] B 1 (by simp)
  have s5 : recordVertex [HistoryEntry.run A 2, HistoryEntry.run B 2] B =
      [HistoryEntry.run A 2, HistoryEntry.run B 3] := by
    simpa using recordVertex_extend [HistoryEntry.run A 2, HistoryEntry.run B 2] B 2 (by simp)
  have s6 : recordVertex [HistoryEntry.run A 2, HistoryEntry.run B 3] A =
      [HistoryEntry.run A 2, HistoryEntry.run B 3, HistoryEntry.run A 1] := by
    simpa using recordVertex_append [HistoryEntry.run A 2, HistoryEntry.run B 3] A
      (fun n => by simp [hAB.symm])
  simp only [List.foldl_cons, List.foldl_nil]
  rw [s1, s2, s3, s4, s5, s6]

/-- Witness for C2 at concrete inputs. -/
theorem C2_witness :
    ((DrawMode.POINTS : DrawMode) ≠ DrawMode.LINES) ∧
    (recordVertex [HistoryEntry.run DrawMode.POINTS 1] DrawMode.POINTS =
      ([HistoryEntry.run DrawMode.POINTS 1] : List HistoryEntry).dropLast ++
        [HistoryEntry.run DrawMode.POINTS 2]) ∧
    (recordVertex [] DrawMode.POINTS = [] ++ [HistoryEntry.run DrawMode.POINTS 1]) ∧
    List.foldl recordVertex []
      [DrawMode.POINTS, DrawMode.POINTS, DrawMode.LINES,
       DrawMode.LINES, DrawMode.LINES, DrawMode.POINTS] =
      [HistoryEntry.run DrawMode.POINTS 2, HistoryEntry.run DrawMode.LINES 3,
       HistoryEntry.run DrawMode.POINTS 1] := by
  have h1 := C2_run_segmentation [HistoryEntry.run DrawMode.POINTS 1]
    DrawMode.POINTS DrawMode.POINTS DrawMode.LINES (by decide)
  have h2 := C2_run_segmentation [] DrawMode.POINTS DrawMode.POINTS DrawMode.LINES (by decide)
  exact ⟨by decide, h1.1 1 (by simp), h2.2.1 (fun n => by simp), h2.2.2⟩

/-- The two floats `addVertex` writes for the new vertex are exactly the
computed clip coordinates. -/
lemma appendedPosition_eq (st : GLState) (x y w h : ℚ) :
    appendedPosition st x y w h = ((2 * x) / w - 1, 1 - (2 * y) / h) := by
  simp [appendedPosition, addVertex, writeFloats, Nat.sub_self, Nat.add_sub_cancel_left]

/-- Claim C6: a click at `(x, y)` on a `(w, h)` surface stores the vertex
position `(2x/w - 1, 1 - 2y/h)`; in particular `(0,0) ↦ (-1, 1)`,
`(w,h) ↦ (1,-1)` and `(w/2,h/2) ↦ (0,0)`. -/
theorem C6_coordinate_mapping (st : GLState) (x y w h : ℚ) (hw : 0 < w) (hh : 0 < h) :
    appendedPosition st x y w h = ((2 * x) / w - 1, 1 - (2 * y) / h) ∧
    appendedPosition st 0 0 w h = (-1, 1) ∧
    appendedPosition st w h w h = (1, -1) ∧
    appendedPosition st (w / 2) (h / 2) w h = (0, 0) := by
  refine ⟨appendedPosition_eq st x y w h, ?_, ?_, ?_⟩
  · rw [appendedPosition_eq]
    norm_num
  · rw [appendedPosition_eq]
    rw [Prod.mk.injEq]
    constructor <;> field_simp <;> norm_num
  · rw [appendedPosition_eq]
    rw [Prod.mk.injEq]
    constructor <;> field_simp

/-- Witness for C6 at concrete inputs. -/
theorem C6_witness :
    ((0 : ℚ) < 2 ∧ (0 : ℚ) < 4) ∧
    (appendedPosition (initialState DrawMode.POINTS (0, 0, 0)) 1 1 2 4 =
        ((2 * 1) / 2 - 1, 1 - (2 * 1) / 4) ∧
      appendedPosition (initialState DrawMode.POINTS (0, 0, 0)) 0 0 2 4 = (-1, 1) ∧
      appendedPosition (initialState DrawMode.POINTS (0, 0, 0)) 2 4 2 4 = (1, -1) ∧
      appendedPosition (initialState DrawMode.POINTS (0, 0, 0)) (2 / 2) (4 / 2) 2 4 = (0, 0)) :=
  ⟨⟨by norm_num, by norm_num⟩,
    C6_coordinate_mapping (initialState DrawMode.POINTS (0, 0, 0)) 1 1 2 4
      (by norm_num) (by norm_num)⟩

/-- The render loop over a pure run ledger produces exactly the spec's draw
sequence and ends with the running offset advanced by the total length. -/
lemma renderLoop_runs (runs : List (DrawMode × Nat)) : ∀ start : Nat,
    renderLoop (runsToHistory runs) (some start) =
      (specDrawSequence runs start, some (start + (runs.map Prod.snd).sum)) := by
  induction runs with
  | nil => intro start; simp [renderLoop, runsToHistory, specDrawSequence]
  | cons r rest ih =>
    intro start
    simp only [runsToHistory, List.map_cons, renderLoop, entryMode, entryVertLength,
      addOffset, specDrawSequence]
    rw [show (List.map (fun r => HistoryEntry.run r.1 r.2) rest) = runsToHistory rest from rfl,
      ih (start + r.2)]
    simp [List.sum_cons]
    omega

/-- Claim C7: a render pass issues one draw call per run in ledger order, the
i-th call starting at the sum of the previous run lengths and covering that
run's length with its mode, and the running offset ends at the total length;
for `[{POINTS,3},{LINES,4}]` it issues exactly the calls `(POINTS,0,3)` and
`(LINES,3,4)` and ends at offset 7. -/
theorem C7_render_offsets (runs : List (DrawMode × Nat)) :
    renderCalls (runsToHistory runs) = specDrawSequence runs 0 ∧
    renderFinalOffset (runsToHistory runs) = some ((runs.map Prod.snd).sum) ∧
    renderCalls (runsToHistory [(DrawMode.POINTS, 3), (DrawMode.LINES, 4)]) =
      [⟨some DrawMode.POINTS, some 0, some 3⟩, ⟨some DrawMode.LINES, some 3, some 4⟩] ∧
    renderFinalOffset (runsToHistory [(DrawMode.POINTS, 3), (DrawMode.LINES, 4)]) = some 7 := by
  refine ⟨?_, ?_, by decide, by decide⟩
  · rw [renderCalls, renderLoop_runs runs 0]
  · rw [renderFinalOffset, renderLoop_runs runs 0]
    simp

/-- Claim C9: `render` leaves the data-model state unchanged, its draw calls
are a function of that state alone, and re-invoking it from the state it
returns issues the same draw calls. -/
theorem C9_render_pure (st : GLState) :
    (render st).1 = st ∧
    (render st).2 = renderCalls st.drawingHistory ∧
    (render ((render st).1)).2 = (render st).2 := ⟨rfl, rfl, rfl⟩

lemma readFloats_length (buf : Nat → ℚ) (n : Nat) : (readFloats buf n).length = n := by
  simp [readFloats]

/-- Reading back exactly the floats just written at offset 0 returns them. -/
lemma readFloats_writeFloats (buf : Nat → ℚ) (vals : List ℚ) :
    readFloats (writeFloats buf 0 vals) vals.length = vals := by
  apply List.ext_getElem
  · simp [readFloats]
  · intro i h1 h2
    simp only [readFloats, List.getElem_map, List.getElem_range, writeFloats, Nat.sub_zero]
    rw [if_pos ⟨Nat.zero_le i, h2⟩]
    exact List.getD_eq_getElem vals 0 h2

lemma popLast_concat (l : List HistoryEntry) (e : HistoryEntry) :
    popLast (l ++ [e]) = some (l, e) := by
  unfold popLast
  rw [List.reverse_append]
  simp

/-- Loading a snapshot whose last two entries are raw data arrays always
succeeds and overwrites history, buffers, and offsets. -/
lemma uploadDrawing_concat (st : GLState) (l : List HistoryEntry) (V C : List ℚ) :
    uploadDrawing st (l ++ [HistoryEntry.data V, HistoryEntry.data C]) =
      some { st with
        drawingHistory := l
        posBuffer := writeFloats st.posBuffer 0 V
        colorBuffer := writeFloats st.colorBuffer 0 C
        currentCoordByteOffset := V.length * BYTES_PER_ELEMENT
        currentColorByteOffset := C.length * BYTES_PER_ELEMENT } := by
  have h1 : l ++ [HistoryEntry.data V, HistoryEntry.data C] =
      (l ++ [HistoryEntry.data V]) ++ [HistoryEntry.data C] := by simp
  rw [h1]
  unfold uploadDrawing
  rw [popLast_concat]
  simp only
  rw [popLast_concat]

/-- Serializing and then loading restores the stored arrays, the byte
offsets, and the pre-download run records, for any state whose byte offsets
are element-aligned. -/
lemma download_upload (st : GLState)
    (h4 : BYTES_PER_ELEMENT ∣ st.currentCoordByteOffset)
    (h4c : BYTES_PER_ELEMENT ∣ st.currentColorByteOffset) :
    ∃ st2, uploadDrawing (downloadDrawing st).1 (downloadDrawing st).2 = some st2 ∧
      storedPositions st2 = storedPositions st ∧
      storedColors st2 = storedColors st ∧
      st2.currentCoordByteOffset = st.currentCoordByteOffset ∧
      st2.currentColorByteOffset = st.currentColorByteOffset ∧
      st2.drawingHistory = st.drawingHistory := by
  have hBPE : 0 < BYTES_PER_ELEMENT := by norm_num [BYTES_PER_ELEMENT]
  refine ⟨{ (downloadDrawing st).1 with
      drawingHistory := st.drawingHistory
      posBuffer := writeFloats st.posBuffer 0 (storedPositions st)
      colorBuffer := writeFloats st.colorBuffer 0 (storedColors st)
      currentCoordByteOffset := (storedPositions st).length * BYTES_PER_ELEMENT
      currentColorByteOffset := (storedColors st).length * BYTES_PER_ELEMENT },
    ?_, ?_, ?_, ?_, ?_, rfl⟩
  · exact uploadDrawing_concat (downloadDrawing st).1 st.drawingHistory
      (storedPositions st) (storedColors st)
  · simp only [storedPositions, Nat.mul_div_cancel _ hBPE]
    exact readFloats_writeFloats st.posBuffer (storedPositions st)
  · simp only [storedColors, Nat.mul_div_cancel _ hBPE]
    exact readFloats_writeFloats st.colorBuffer (storedColors st)
  · simp only [storedPositions, readFloats_length]
    exact Nat.div_mul_cancel h4
  · simp only [storedColors, readFloats_length]
    exact Nat.div_mul_cancel h4c

/-- Claim C3: for any session of `N ≤ MAX_VERTICES` clicks, saving and then
loading the saved snapshot reproduces the stored position and color arrays
exactly (which implies the spec's 1e-6 tolerance) and restores both byte
offsets. -/
theorem C3_round_trip (m : DrawMode) (c : ℚ × ℚ × ℚ) (evs : List ClickEvent)
    (_hN : evs.length ≤ MAX_VERTICES) :
    ∃ st2, uploadDrawing (downloadDrawing (sessionOf m c evs)).1
        (downloadDrawing (sessionOf m c evs)).2 = some st2 ∧
      storedPositions st2 = storedPositions (sessionOf m c evs) ∧
      storedColors st2 = storedColors (sessionOf m c evs) ∧
      st2.currentCoordByteOffset = (sessionOf m c evs).currentCoordByteOffset ∧
      st2.currentColorByteOffset = (sessionOf m c evs).currentColorByteOffset := by
  obtain ⟨hcoord, hcolor⟩ := sessionOf_offsets m c evs
  obtain ⟨st2, h1, h2, h3, h4, h5, _⟩ := download_upload (sessionOf m c evs)
    ⟨2 * evs.length, by rw [hcoord, BYTES_PER_ELEMENT]; ring⟩
    ⟨3 * evs.length, by rw [hcolor, BYTES_PER_ELEMENT]; ring⟩
  exact ⟨st2, h1, h2, h3, h4, h5⟩

/-- A sample one-click session used by concrete witnesses below. -/
def sampleClick : ClickEvent :=
  { offsetX := 0, offsetY := 0, offsetWidth := 2, offsetHeight := 2
    mode := DrawMode.POINTS, color := (0, 0, 0) }

/-- Witness for C3 at a concrete one-click session. -/
theorem C3_witness :
    [sampleClick].length ≤ MAX_VERTICES ∧
    ∃ st2, uploadDrawing (downloadDrawing (sessionOf DrawMode.POINTS (0, 0, 0) [sampleClick])).1
        (downloadDrawing (sessionOf DrawMode.POINTS (0, 0, 0) [sampleClick])).2 = some st2 ∧
      storedPositions st2 = storedPositions (sessionOf DrawMode.POINTS (0, 0, 0) [sampleClick]) ∧
      storedColors st2 = storedColors (sessionOf DrawMode.POINTS (0, 0, 0) [sampleClick]) ∧
      st2.currentCoordByteOffset =
        (sessionOf DrawMode.POINTS (0, 0, 0) [sampleClick]).currentCoordByteOffset ∧
      st2.currentColorByteOffset =
        (sessionOf DrawMode.POINTS (0, 0, 0) [sampleClick]).currentColorByteOffset :=
  ⟨by norm_num [MAX_VERTICES],
   C3_round_trip DrawMode.POINTS (0, 0, 0) [sampleClick] (by norm_num [MAX_VERTICES])⟩

/-- Claim C8: the snapshot written for a drawing whose history holds `R` run
records is the ordered list of those `R` records followed by the flat position
array and then the flat color array — `R + 2` entries. -/
theorem C8_snapshot_format (st : GLState) (runs : List (DrawMode × Nat))
    (h : st.drawingHistory = runsToHistory runs) :
    (downloadDrawing st).2 =
      runsToHistory runs ++
        [HistoryEntry.data (storedPositions st), HistoryEntry.data (storedColors st)] ∧
    (downloadDrawing st).2.length = runs.length + 2 := by
  constructor
  · simp [downloadDrawing, h]
  · simp [downloadDrawing, h, runsToHistory]

/-- A small concrete state (one run of one vertex) used by the witnesses. -/
def sampleState : GLState :=
  { drawingHistory := [HistoryEntry.run DrawMode.POINTS 1]
    posBuffer := fun _ => 0
    colorBuffer := fun _ => 0
    currentCoordByteOffset := 8
    currentColorByteOffset := 12
    drawingMode := DrawMode.POINTS
    drawingColor := (0, 0, 0) }

/-- Witness for C8 at a concrete state. -/
theorem C8_witness :
    sampleState.drawingHistory = runsToHistory [(DrawMode.POINTS, 1)] ∧
    ((downloadDrawing sampleState).2 =
      runsToHistory [(DrawMode.POINTS, 1)] ++
        [HistoryEntry.data (storedPositions sampleState),
         HistoryEntry.data (storedColors sampleState)] ∧
     (downloadDrawing sampleState).2.length = [(DrawMode.POINTS, 1)].length + 2) :=
  ⟨rfl, C8_snapshot_format sampleState [(DrawMode.POINTS, 1)] rfl⟩

/-- Claim C10 (code bug): `downloadDrawing` does NOT leave the drawing
history unchanged — it appends the raw position and color arrays to it, so
after a save the in-memory ledger no longer consists only of run records. -/
theorem C10_download_mutates_history (st : GLState) :
    (downloadDrawing st).1.drawingHistory =
      st.drawingHistory ++
        [HistoryEntry.data (storedPositions st), HistoryEntry.data (storedColors st)] ∧
    (downloadDrawing sampleState).1.drawingHistory ≠ sampleState.drawingHistory := by
  refine ⟨rfl, ?_⟩
  decide

/-- Claim C4 (code bug): `addVertex` has no capacity check at all.  From a
state already holding `MAX_VERTICES` vertices, one more click advances
`vertexCount` to `MAX_VERTICES + 1` and grows the run ledger — the append is
applied, not rejected with `CapacityExceeded`. -/
theorem C4_no_capacity_check (st : GLState) (x y w h : ℚ)
    (hfull : vertexCount st = MAX_VERTICES) :
    vertexCount (addVertex st x y w h) = MAX_VERTICES + 1 ∧
    totalVertices (addVertex st x y w h).drawingHistory =
      totalVertices st.drawingHistory + 1 := by
  constructor
  · have hoff : (addVertex st x y w h).currentCoordByteOffset =
        st.currentCoordByteOffset + 8 := by
      simp [addVertex, BYTES_PER_ELEMENT]
    simp only [vertexCount, hoff, BYTES_PER_ELEMENT, MAX_VERTICES] at hfull ⊢
    omega
  · exact totalVertices_recordVertex st.drawingHistory st.drawingMode

/-- A state holding exactly `MAX_VERTICES` vertices in a single run. -/
def fullState : GLState :=
  { drawingHistory := [HistoryEntry.run DrawMode.POINTS MAX_VERTICES]
    posBuffer := fun _ => 0
    colorBuffer := fun _ => 0
    currentCoordByteOffset := 800000
    currentColorByteOffset := 1200000
    drawingMode := DrawMode.POINTS
    drawingColor := (0, 0, 0) }

/-- Witness for C4 at a concrete full state. -/
theorem C4_witness :
    vertexCount fullState = MAX_VERTICES ∧
    (vertexCount (addVertex fullState 1 1 2 2) = MAX_VERTICES + 1 ∧
     totalVertices (addVertex fullState 1 1 2 2).drawingHistory =
       totalVertices fullState.drawingHistory + 1) :=
  ⟨by decide, C4_no_capacity_check fullState 1 1 2 2 (by decide)⟩

/-- A snapshot whose position array has odd length (not a multiple of 2). -/
def badSnapshotOdd : List HistoryEntry :=
  [HistoryEntry.run DrawMode.POINTS 1,
   HistoryEntry.data [1, 2, 3],
   HistoryEntry.data [0, 0, 0]]

/-- A snapshot whose position array describes 1 vertex but whose color array
describes 2 vertices. -/
def badSnapshotMismatch : List HistoryEntry :=
  [HistoryEntry.run DrawMode.POINTS 1,
   HistoryEntry.data [1, 2],
   HistoryEntry.data [0, 0, 0, 0, 0, 0]]

/-- Claim C5 (code bug): `uploadDrawing` performs no structural validation.
A snapshot with an odd position array, or with mismatched position/color
vertex counts, is accepted (no `MalformedSnapshot` failure) and the current
in-memory state is overwritten (offsets and history change). -/
theorem C5_no_validation :
    (Option.map GLState.currentCoordByteOffset
        (uploadDrawing (initialState DrawMode.POINTS (0, 0, 0)) badSnapshotOdd) = some 12 ∧
      Option.map GLState.drawingHistory
        (uploadDrawing (initialState DrawMode.POINTS (0, 0, 0)) badSnapshotOdd) =
          some [HistoryEntry.run DrawMode.POINTS 1] ∧
      (initialState DrawMode.POINTS (0, 0, 0)).currentCoordByteOffset = 0) ∧
    Option.map (fun s => (s.currentCoordByteOffset, s.currentColorByteOffset))
        (uploadDrawing (initialState DrawMode.POINTS (0, 0, 0)) badSnapshotMismatch) =
          some (8, 24) := by
  refine ⟨⟨rfl, rfl, rfl⟩, rfl⟩
